import Mathlib

/-!
# Verification of the Arcadia Laserfiche WebLink client

A shallow embedding of the WebLink client found in
`src/lib/WebLinkClient.ts` (library class), `src/lib/types.ts` /
`src/lib/utils.ts` (data model and the type-code mapping), and the
deprecated standalone script `arcadia-files.ts` (legacy client), together
with theorems settling the specification's claims about it.

JavaScript `Map<string,string>` is embedded as an association list in
insertion order (`Map.set` overwrites in place, otherwise appends; the
iteration order used by `getCookieHeader` is insertion order).  JSON
values appearing in the untyped `data[]` row arrays are embedded as a
small value type `JsonVal`.  TypeScript optional fields become `Option`.
Network transports and the folder-listing backend are universally
quantified functions; the fetch recursion, unbounded in the source, takes
explicit fuel.
-/

set_option maxHeartbeats 1000000

set_option maxRecDepth 8000

/-- A JSON-ish value as it appears in the untyped `data[]` arrays of a
result row (the TypeScript type is `any[]`). -/
inductive JsonVal where
  | str (s : String)
  | num (n : Int)
  | bool (b : Bool)
  | null
deriving DecidableEq, Repr

/-- `WebLinkConfig` from `src/lib/types.ts`: base URL, repository name,
numeric database id. -/
structure WebLinkConfig where
  baseUrl : String
  repoName : String
  dbid : Int
deriving DecidableEq, Repr

/-- A column descriptor from the `colTypes[]` array of a payload. -/
structure ColType where
  name : String
deriving DecidableEq, Repr

/-- A result row of a folder-listing payload: `entryId`, `name`, numeric
`type`, and the parallel `data[]` array (`result.data?.[i]` in the source
tolerates an absent array, hence `Option`). -/
structure ResultRow where
  name : String
  entryId : Int
  type : Int
  data : Option (List JsonVal)
deriving DecidableEq, Repr

/-- The inner payload of an API envelope: `name`, `totalEntries`,
`results[]`, `colTypes[]`.  All fields are optional because the code
guards each access (`data.name || ""`, `data.totalEntries || 0`,
`data.results || []`, `data.colTypes || []`). -/
structure Payload where
  name : Option String
  totalEntries : Option Int
  results : Option (List ResultRow)
  colTypes : Option (List ColType)
deriving DecidableEq, Repr

/-- `ApiResponse` from `src/lib/types.ts`: the envelope is either
`{ data: Payload }` (modern) or `{ d: Payload }` (legacy), or neither. -/
structure ApiResponse where
  data : Option Payload
  d : Option Payload
deriving DecidableEq, Repr

/-- The decoded, normalized entry (`FolderEntry` from `src/lib/types.ts`).
The four optional fields are read from the untyped `data[]` array, so
their embedded type is `Option JsonVal` (`undefined` becomes `none`). -/
structure FolderEntry where
  id : Int
  name : String
  type : String
  pageCount : Option JsonVal
  template : Option JsonVal
  creationDate : Option JsonVal
  modificationDate : Option JsonVal
deriving DecidableEq, Repr

/-- `FolderContents` from `src/lib/types.ts`. -/
structure FolderContents where
  folderName : String
  entries : List FolderEntry
deriving DecidableEq, Repr

/-- `getEntryType` from `src/lib/utils.ts`: the fixed mapping
`0 → Folder`, `1 → Document`, `2 → Shortcut`, `-2 → Document`
(via the `EntryType` enum of `src/lib/types.ts`), catch-all
`Unknown(<code>)`. -/
def getEntryType (typeNum : Int) : String :=
  if typeNum = 0 then "Folder"
  else if typeNum = 1 then "Document"
  else if typeNum = 2 then "Shortcut"
  else if typeNum = -2 then "Document"
  else "Unknown(" ++ toString typeNum ++ ")"

/-- `response?.data || response?.d`: unwrap the envelope, preferring the
modern `data` key (a present JSON object is always truthy). -/
def envData (response : Option ApiResponse) : Option Payload :=
  match response with
  | none => none
  | some r => r.data.orElse (fun _ => r.d)

/-- `colTypes.findIndex((c) => c.name === <colName>)`, as an `Option Nat`
(`none` embeds the `-1` sentinel, which the call sites test with
`idx >= 0`). -/
def findColIdx (colTypes : List ColType) (colName : String) : Option Nat :=
  colTypes.findIdx? (fun c => c.name == colName)

/-- `idx >= 0 ? result.data?.[idx] : undefined`. -/
def readCol (row : ResultRow) (idx : Option Nat) : Option JsonVal :=
  match idx with
  | none => none
  | some i =>
    match row.data with
    | none => none
    | some l => l.get? i

/-- Decoding of one result row against one page's `colTypes`, exactly as
the loop body of `getAllEntries` / the `map` of `browseFolder` builds a
`FolderEntry`. -/
def decodeRow (colTypes : List ColType) (row : ResultRow) : FolderEntry :=
  { id := row.entryId
    name := row.name
    type := getEntryType row.type
    pageCount := readCol row (findColIdx colTypes "PageCount")
    template := readCol row (findColIdx colTypes "TemplateName")
    creationDate := readCol row (findColIdx colTypes "CreationDate")
    modificationDate := readCol row (findColIdx colTypes "LastModified") }

/-- Decoding of one page: resolve the four column indices against this
page's own `colTypes`, then decode every row of `results`. -/
def decodePage (data : Payload) : List FolderEntry :=
  (data.results.getD []).map (decodeRow (data.colTypes.getD []))

example : getEntryType 0 = "Folder" := by decide
example : getEntryType (-2) = "Document" := by decide
example : getEntryType 99 = "Unknown(99)" := by decide

/-! ## Session / transport layer -/

/-- The cookie jar, a JavaScript `Map<string,string>` in insertion
order. -/
abbrev Jar := List (String × String)

/-- `Map.set`: overwrite in place when the key exists, otherwise append
(JavaScript map iteration preserves insertion order). -/
def mapSet (jar : Jar) (k v : String) : Jar :=
  if jar.any (fun p => p.1 == k) then
    jar.map (fun p => if p.1 == k then (k, v) else p)
  else jar ++ [(k, v)]

/-- `Map.get` (by key), used in proofs to observe the jar. -/
def jarGet (jar : Jar) (k : String) : Option String :=
  (jar.find? (fun p => p.1 == k)).map (fun p => p.2)

/-- `getCookieHeader`: join all jar entries as `name=value` pairs
separated by `; `, in insertion order. -/
def getCookieHeader (jar : Jar) : String :=
  String.intercalate "; " (jar.map (fun p => p.1 ++ "=" ++ p.2))

/-- The character content of JavaScript `String.prototype.trim` (strip
whitespace from both ends), written structurally over the character list
so it evaluates by kernel reduction. -/
def trimChars (cs : List Char) : List Char :=
  ((cs.dropWhile Char.isWhitespace).reverse.dropWhile Char.isWhitespace).reverse

/-- JavaScript `s.trim()`. -/
def jsTrim (s : String) : String :=
  String.mk (trimChars s.toList)

/-- JavaScript `s.startsWith(pat)`. -/
def jsStartsWith (s pat : String) : Bool :=
  pat.toList.isPrefixOf s.toList

/-- One `Set-Cookie` header, parsed as in `parseCookies`: take the
segment before the first `;` (JavaScript `cookie.split(";")[0]`), find
the first `=` (`indexOf`); when its index is strictly positive, trim
name and value (`slice(0, i).trim()` / `slice(i + 1).trim()`) and yield
the pair, otherwise skip.  Returns `none` for a skipped (malformed)
entry. -/
def parseSetCookie (cookie : String) : Option (String × String) :=
  let nameValue := cookie.toList.takeWhile (fun c => c != ';')
  match nameValue.findIdx? (fun c => c == '=') with
  | none => none
  | some eqIdx =>
    if eqIdx > 0 then
      some (jsTrim (String.mk (nameValue.take eqIdx)),
            jsTrim (String.mk (nameValue.drop (eqIdx + 1))))
    else none

/-- `parseCookies`: merge every `Set-Cookie` entry of a response into the
jar, skipping malformed entries. -/
def parseCookies (jar : Jar) (setCookies : List String) : Jar :=
  setCookies.foldl
    (fun j c =>
      match parseSetCookie c with
      | some (n, v) => mapSet j n v
      | none => j)
    jar

/-- Split a character list at the first occurrence of `://`, giving the
parts before and after it. -/
def breakOnScheme : List Char → Option (List Char × List Char)
  | [] => none
  | ':' :: '/' :: '/' :: rest => some ([], rest)
  | c :: rest => (breakOnScheme rest).map (fun p => (c :: p.1, p.2))

/-- Modelled from the host platform: `new URL(u).origin` for the simple
`scheme://host/path` URLs this client is configured with (no port or
userinfo normalization; the source delegates this to the runtime's
`URL` class, which is not part of the repository). -/
def urlOrigin (u : String) : String :=
  match breakOnScheme u.toList with
  | none => u
  | some (scheme, rest) =>
    String.mk scheme ++ "://" ++ String.mk (rest.takeWhile (fun c => c != '/'))

/-- `resolveUrl` of the library client: absolute URLs pass through, a
leading `/` resolves against the origin of the configured base URL,
anything else is appended to the base URL. -/
def resolveUrl (config : WebLinkConfig) (url : String) : String :=
  if jsStartsWith url "http" then url
  else if jsStartsWith url "/" then urlOrigin config.baseUrl ++ url
  else config.baseUrl ++ "/" ++ url

/-- An HTTP response as the client observes it: numeric status, the
`Set-Cookie` headers, the `Location` header (`none` when absent), and
the body's JSON parse (`none` embeds a parse failure, which the source
catches). -/
structure HttpResponse where
  status : Int
  setCookies : List String
  location : Option String
  jsonBody : Option ApiResponse
deriving DecidableEq, Repr

/-- `[301, 302, 303, 307, 308].includes(status)`. -/
def isRedirectStatus (status : Int) : Bool :=
  status == 301 || status == 302 || status == 303 ||
  status == 307 || status == 308

/-- The redirect-follow condition of `fetch`:
`location && [301,302,303,307,308].includes(response.status)` — the
`Location` header must be present and non-empty (an empty string is
falsy in JavaScript) and the status must be one of the five codes. -/
def redirectCond (r : HttpResponse) : Bool :=
  match r.location with
  | none => false
  | some loc => loc != "" && isRedirectStatus r.status

/-- `response.ok`: status in `[200, 300)`. -/
def respOk (r : HttpResponse) : Bool :=
  200 ≤ r.status && r.status < 300

/-- `WebLinkClient.fetch`: resolve the URL, issue the request through the
`transport` (which sees the resolved URL and the `Cookie` header built
from the jar), merge `Set-Cookie` headers into the jar, and when the
response is a redirect with a `Location`, recursively repeat against the
resolved location with the updated jar.  The source recursion is
unbounded, so the embedding takes fuel; `none` is fuel exhaustion.
Returns the final response, the final jar, and the log of
`(resolved URL, Cookie header sent)` pairs in request order. -/
def clientFetch (transport : String → String → HttpResponse)
    (config : WebLinkConfig) (fuel : Nat) (jar : Jar) (url : String) :
    Option (HttpResponse × Jar × List (String × String)) :=
  match fuel with
  | 0 => none
  | fuel + 1 =>
    let fullUrl := resolveUrl config url
    let resp := transport fullUrl (getCookieHeader jar)
    let jar' := parseCookies jar resp.setCookies
    if redirectCond resp then
      match resp.location with
      | some loc =>
        (clientFetch transport config fuel jar' loc).map
          (fun x => (x.1, x.2.1, (fullUrl, getCookieHeader jar) :: x.2.2))
      | none => none
    else some (resp, jar', [(fullUrl, getCookieHeader jar)])

/-- `getFolderListing`, keyed on the final response of its `fetch` call:
`null` when the status is not a success, `null` when the body fails to
parse as JSON (the source catches the parse error), otherwise the parsed
envelope.  Total — the embedding of a function that never raises. -/
def getFolderListing (finalResponse : HttpResponse) : Option ApiResponse :=
  if respOk finalResponse then finalResponse.jsonBody else none

/-! ## Pagination policies

The folder-listing backend is a function
`listing : folderId → start → end → Option ApiResponse`, the observable
behavior of `getFolderListing` for the pagination layer (the client
issues each `(start, end)` window of a run once, so a function captures
any response sequence).  `getAllEntries` returns the decoded contents
together with the log of `(start, end)` windows requested, in order. -/

/-- The tail of the `do…while` loop of `getAllEntries`, after the first
iteration captured `totalEntries` (the loop condition is
`start < totalEntries`; each later iteration issues the request, breaks
when the envelope has no payload, otherwise decodes the page against its
own `colTypes` and advances `start` by the page size 500).  Terminates
because `start` strictly increases towards the fixed `totalEntries`. -/
def getAllEntriesRest (listing : Int → Int → Int → Option ApiResponse)
    (folderId : Int) (totalEntries : Int) (start : Int) :
    List FolderEntry × List (Int × Int) :=
  if _h : start < totalEntries then
    match envData (listing folderId start (start + 500)) with
    | none => ([], [(start, start + 500)])
    | some data =>
      let rest := getAllEntriesRest listing folderId totalEntries (start + 500)
      (decodePage data ++ rest.1, (start, start + 500) :: rest.2)
  else ([], [])
termination_by (totalEntries - start).toNat
decreasing_by simp_wf; omega

/-- `getAllEntries`: the first iteration of the `do…while` loop always
runs with window `(0, 500)`; on its success the folder name
(`data.name || ""`) and total (`data.totalEntries || 0`) are captured
once, the first page is decoded, and the loop proceeds from
`start = 500`. -/
def getAllEntries (listing : Int → Int → Int → Option ApiResponse)
    (folderId : Int) : FolderContents × List (Int × Int) :=
  match envData (listing folderId 0 500) with
  | none => (⟨"", []⟩, [(0, 500)])
  | some data =>
    let folderName := data.name.getD ""
    let totalEntries := data.totalEntries.getD 0
    let rest := getAllEntriesRest listing folderId totalEntries 500
    (⟨folderName, decodePage data ++ rest.1⟩, (0, 500) :: rest.2)

/-- `browseFolder`: a single request with the fixed window `(0, 100)`,
decoded with the same column-resolution and type-mapping logic; no
pagination. -/
def browseFolder (listing : Int → Int → Int → Option ApiResponse)
    (folderId : Int) : FolderContents :=
  match envData (listing folderId 0 100) with
  | none => ⟨"", []⟩
  | some data => ⟨data.name.getD "", decodePage data⟩

/-- The two URLs `initSession` fetches, in order — portal root, then the
login path parameterized by database id and repository name. -/
def initSessionUrls (config : WebLinkConfig) : List String :=
  [config.baseUrl ++ "/",
   config.baseUrl ++ "/Login.aspx?dbid=" ++ toString config.dbid ++
     "&repo=" ++ config.repoName]

/-- `ARCADIA_CONFIG` from `src/cli/index.ts` — the configuration the
library client is instantiated with. -/
def ARCADIA_CONFIG : WebLinkConfig :=
  { baseUrl := "https://laserfiche.arcadiaca.gov/WebLink"
    repoName := "CityofArcadia"
    dbid := 0 }

/-! ## The deprecated standalone script (`arcadia-files.ts`)

A second embedding, definition for definition, of the legacy client
class in `arcadia-files.ts`, for the refinement claim comparing the two
implementations. -/

namespace Legacy

/-- `BASE_URL` constant at the top of `arcadia-files.ts`. -/
def BASE_URL : String := "https://laserfiche.arcadiaca.gov/WebLink"

/-- `REPO` constant at the top of `arcadia-files.ts`. -/
def REPO : String := "CityofArcadia"

/-- Legacy `getCookieHeader` (textually identical to the library's). -/
def getCookieHeader (jar : Jar) : String :=
  String.intercalate "; " (jar.map (fun p => p.1 ++ "=" ++ p.2))

/-- Legacy `parseCookies` loop body for one `Set-Cookie` header
(textually identical to the library's). -/
def parseSetCookie (cookie : String) : Option (String × String) :=
  let nameValue := cookie.toList.takeWhile (fun c => c != ';')
  match nameValue.findIdx? (fun c => c == '=') with
  | none => none
  | some eqIdx =>
    if eqIdx > 0 then
      some (jsTrim (String.mk (nameValue.take eqIdx)),
            jsTrim (String.mk (nameValue.drop (eqIdx + 1))))
    else none

/-- Legacy `parseCookies` (textually identical to the library's). -/
def parseCookies (jar : Jar) (setCookies : List String) : Jar :=
  setCookies.foldl
    (fun j c =>
      match Legacy.parseSetCookie c with
      | some (n, v) => mapSet j n v
      | none => j)
    jar

/-- Legacy `resolveUrl`: the `/`-rooted branch hardcodes the origin
`https://laserfiche.arcadiaca.gov` instead of deriving it from a
configured base URL. -/
def resolveUrl (url : String) : String :=
  if jsStartsWith url "http" then url
  else if jsStartsWith url "/" then "https://laserfiche.arcadiaca.gov" ++ url
  else Legacy.BASE_URL ++ "/" ++ url

/-- Legacy `getEntryType` at the bottom of `arcadia-files.ts`: its
record maps only `0`, `1`, `2` — it has no entry for `-2`. -/
def getEntryType (typeNum : Int) : String :=
  if typeNum = 0 then "Folder"
  else if typeNum = 1 then "Document"
  else if typeNum = 2 then "Shortcut"
  else "Unknown(" ++ toString typeNum ++ ")"

/-- Legacy row decoding — the loop body of the legacy `getAllEntries`,
identical to the library's except that it calls the legacy
`getEntryType`. -/
def decodeRow (colTypes : List ColType) (row : ResultRow) : FolderEntry :=
  { id := row.entryId
    name := row.name
    type := Legacy.getEntryType row.type
    pageCount := readCol row (findColIdx colTypes "PageCount")
    template := readCol row (findColIdx colTypes "TemplateName")
    creationDate := readCol row (findColIdx colTypes "CreationDate")
    modificationDate := readCol row (findColIdx colTypes "LastModified") }

/-- Legacy page decoding. -/
def decodePage (data : Payload) : List FolderEntry :=
  (data.results.getD []).map (Legacy.decodeRow (data.colTypes.getD []))

/-- Tail of the legacy `getAllEntries` loop (same structure as the
library's). -/
def getAllEntriesRest (listing : Int → Int → Int → Option ApiResponse)
    (folderId : Int) (totalEntries : Int) (start : Int) :
    List FolderEntry × List (Int × Int) :=
  if _h : start < totalEntries then
    match envData (listing folderId start (start + 500)) with
    | none => ([], [(start, start + 500)])
    | some data =>
      let rest :=
        Legacy.getAllEntriesRest listing folderId totalEntries (start + 500)
      (Legacy.decodePage data ++ rest.1, (start, start + 500) :: rest.2)
  else ([], [])
termination_by (totalEntries - start).toNat
decreasing_by simp_wf; omega

/-- Legacy `getAllEntries` (same structure as the library's, with the
legacy decoding). -/
def getAllEntries (listing : Int → Int → Int → Option ApiResponse)
    (folderId : Int) : FolderContents × List (Int × Int) :=
  match envData (listing folderId 0 500) with
  | none => (⟨"", []⟩, [(0, 500)])
  | some data =>
    let folderName := data.name.getD ""
    let totalEntries := data.totalEntries.getD 0
    let rest := Legacy.getAllEntriesRest listing folderId totalEntries 500
    (⟨folderName, Legacy.decodePage data ++ rest.1⟩, (0, 500) :: rest.2)

/-- Legacy `fetch` (textually identical to the library's, but resolving
URLs through the hardcoded legacy `resolveUrl`). -/
def clientFetch (transport : String → String → HttpResponse)
    (fuel : Nat) (jar : Jar) (url : String) :
    Option (HttpResponse × Jar × List (String × String)) :=
  match fuel with
  | 0 => none
  | fuel + 1 =>
    let fullUrl := Legacy.resolveUrl url
    let resp := transport fullUrl (Legacy.getCookieHeader jar)
    let jar' := Legacy.parseCookies jar resp.setCookies
    if redirectCond resp then
      match resp.location with
      | some loc =>
        (Legacy.clientFetch transport fuel jar' loc).map
          (fun x => (x.1, x.2.1,
            (fullUrl, Legacy.getCookieHeader jar) :: x.2.2))
      | none => none
    else some (resp, jar', [(fullUrl, Legacy.getCookieHeader jar)])

/-- The two URLs the legacy `initSession` fetches:
`${BASE_URL}/` and `${BASE_URL}/Login.aspx?dbid=0&repo=${REPO}`. -/
def initSessionUrls : List String :=
  [Legacy.BASE_URL ++ "/",
   Legacy.BASE_URL ++ "/Login.aspx?dbid=0&repo=" ++ Legacy.REPO]

end Legacy

/-! ## Concrete fixtures (used by witnesses) -/

/-- A sample document row whose `data[]` array matches
`colTypes = [TemplateName, PageCount]`. -/
def sampleRow : ResultRow :=
  { name := "CC - Agenda 2024-01-16"
    entryId := 10
    type := 1
    data := some [JsonVal.str "CC - Agendas", JsonVal.num 7] }

/-- Build a payload from its four fields. -/
def mkPayload (nm : String) (tot : Int) (rows : List ResultRow)
    (cols : List ColType) : Payload :=
  { name := some nm
    totalEntries := some tot
    results := some rows
    colTypes := some cols }

/-- A backend serving `totalEntries = 1200` in pages of 500/500/200 rows
(first two pages in the modern envelope, the third in the legacy one). -/
def fixtureListing1200 : Int → Int → Int → Option ApiResponse :=
  fun _ start _ =>
    if start == 0 then
      some ⟨some (mkPayload "City Council" 1200 (List.replicate 500 sampleRow)
        [⟨"TemplateName"⟩, ⟨"PageCount"⟩]), none⟩
    else if start == 500 then
      some ⟨some (mkPayload "ignored" 9999 (List.replicate 500 sampleRow) []),
        none⟩
    else if start == 1000 then
      some ⟨none, some (mkPayload "ignored too" 5
        (List.replicate 200 sampleRow) [])⟩
    else none

/-- A backend reporting `totalEntries = 0` with empty results. -/
def fixtureListingEmpty : Int → Int → Int → Option ApiResponse :=
  fun _ _ _ => some ⟨some (mkPayload "Empty Folder" 0 [] []), none⟩

/-- First page of the two-page fixture: `totalEntries = 501`, `colTypes`
declaring only `PageCount`. -/
def fixturePage501a : Payload := mkPayload "Mixed" 501 [sampleRow] [⟨"PageCount"⟩]

/-- Second page of the two-page fixture: `colTypes` declaring only
`TemplateName`. -/
def fixturePage501b : Payload :=
  mkPayload "ignored" 501 [sampleRow] [⟨"TemplateName"⟩]

/-- A backend reporting `totalEntries = 501` over two pages whose
`colTypes` differ, exercising per-page column re-resolution. -/
def fixtureListing501 : Int → Int → Int → Option ApiResponse :=
  fun _ start _ =>
    if start == 0 then some ⟨some fixturePage501a, none⟩
    else if start == 500 then some ⟨some fixturePage501b, none⟩
    else none

/-- A one-page payload used by the envelope-symmetry witness. -/
def fixturePagePayload : Payload :=
  mkPayload "Sym" 1 [sampleRow] [⟨"PageCount"⟩, ⟨"LastModified"⟩]

/-- A backend wrapping `fixturePagePayload` in the modern `data` key. -/
def fixtureListingDataKey : Int → Int → Int → Option ApiResponse :=
  fun _ _ _ => some ⟨some fixturePagePayload, none⟩

/-- The same backend with the payload under the legacy `d` key. -/
def fixtureListingDKey : Int → Int → Int → Option ApiResponse :=
  fun _ _ _ => some ⟨none, some fixturePagePayload⟩

/-- A transport that answers every request with a `302` to `/Other.aspx`
setting a session cookie, except for `/Other.aspx` itself, which answers
`200`. -/
def redirectTransport : String → String → HttpResponse :=
  fun url _cookieHeader =>
    if url == "https://laserfiche.arcadiaca.gov/Other.aspx" then
      { status := 200, setCookies := [], location := none, jsonBody := none }
    else
      { status := 302, setCookies := ["SESSION=xyz; Path=/"],
        location := some "/Other.aspx", jsonBody := none }

/-! ## Helper lemmas -/

/-- One unfolding step of the pagination tail when the loop condition
holds. -/
theorem getAllEntriesRest_pos (listing : Int → Int → Int → Option ApiResponse)
    (folderId totalEntries start : Int) (h : start < totalEntries) :
    getAllEntriesRest listing folderId totalEntries start =
      match envData (listing folderId start (start + 500)) with
      | none => ([], [(start, start + 500)])
      | some data =>
        let rest :=
          getAllEntriesRest listing folderId totalEntries (start + 500)
        (decodePage data ++ rest.1, (start, start + 500) :: rest.2) := by
  rw [getAllEntriesRest]
  simp [h]

/-- One unfolding step of the pagination tail when the loop condition
fails. -/
theorem getAllEntriesRest_neg (listing : Int → Int → Int → Option ApiResponse)
    (folderId totalEntries start : Int) (h : ¬ start < totalEntries) :
    getAllEntriesRest listing folderId totalEntries start = ([], []) := by
  rw [getAllEntriesRest]
  simp [h]

/-- `readCol` at a present index is a lookup in the optional row array. -/
theorem readCol_some (row : ResultRow) (i : Nat) :
    readCol row (some i) = row.data.bind (fun l => l.get? i) := by
  cases row with
  | mk n e t d => cases d <;> rfl

/-- A column name carried by no `colTypes` entry resolves to no index. -/
theorem findColIdx_eq_none (colTypes : List ColType) (colName : String)
    (h : ∀ c ∈ colTypes, c.name ≠ colName) :
    findColIdx colTypes colName = none := by
  unfold findColIdx
  rw [List.findIdx?_eq_none_iff]
  intro c hc
  simpa using h c hc

/-! ## Claim C3 -/

/-- C3: the entry-type resolution maps 0 to Folder, 1 to Document, 2 to
Shortcut, -2 to Document, and every other code n to the tagged string
Unknown(n) carrying the original code; a decoded entry's type field is
always the (string) image of this mapping, never a raw number. -/
theorem entryType_mapping :
    getEntryType 0 = "Folder" ∧
    getEntryType 1 = "Document" ∧
    getEntryType 2 = "Shortcut" ∧
    getEntryType (-2) = "Document" ∧
    (∀ n : Int, n ≠ 0 → n ≠ 1 → n ≠ 2 → n ≠ -2 →
      getEntryType n = "Unknown(" ++ toString n ++ ")") ∧
    (∀ colTypes row, (decodeRow colTypes row).type = getEntryType row.type) := by
  refine ⟨rfl, rfl, rfl, rfl, ?_, fun _ _ => rfl⟩
  intro n h0 h1 h2 hm2
  simp [getEntryType, h0, h1, h2, hm2]

/-- Witness for C3: the general branch evaluated at the concrete
code 99. -/
theorem entryType_mapping_witness :
    getEntryType 99 = "Unknown(" ++ toString (99 : Int) ++ ")" :=
  entryType_mapping.2.2.2.2.1 99 (by decide) (by decide) (by decide)
    (by decide)

/-! ## Claim C7 -/

/-- C7: getFolderListing returns null exactly when the final response has
a non-success status or its body fails to parse as JSON, and otherwise
returns the parsed envelope; the embedding is a total function (the
source catches the JSON parse error and never raises). -/
theorem getFolderListing_null_iff (r : HttpResponse) :
    (getFolderListing r = none ↔ respOk r = false ∨ r.jsonBody = none) ∧
    (∀ env, getFolderListing r = some env ↔
      respOk r = true ∧ r.jsonBody = some env) := by
  unfold getFolderListing
  cases h : respOk r <;> simp

/-- Witness for C7: a 404 yields null, a 200 with a parsed body yields
the envelope. -/
theorem getFolderListing_null_iff_witness :
    getFolderListing ⟨404, [], none, none⟩ = none ∧
    getFolderListing ⟨200, [], none, some ⟨none, none⟩⟩ =
      some ⟨none, none⟩ :=
  ⟨(getFolderListing_null_iff ⟨404, [], none, none⟩).1.mpr
      (Or.inl (by decide)),
   ((getFolderListing_null_iff ⟨200, [], none, some ⟨none, none⟩⟩).2
      ⟨none, none⟩).mpr ⟨by decide, rfl⟩⟩

/-! ## Claim C4 -/

/-- C4: on every page the optional fields are read from the row's
parallel data array at the index where that page's own colTypes lists
the column names PageCount, TemplateName, CreationDate, LastModified,
re-resolved per page by linear search; a name absent from a page's
colTypes leaves the field absent.  The concrete instance of the spec and
a two-page run (each page decoded against its own colTypes) are
included. -/
theorem column_resolution_per_page :
    (∀ (colTypes : List ColType) (row : ResultRow),
      ((∀ c ∈ colTypes, c.name ≠ "PageCount") →
        (decodeRow colTypes row).pageCount = none) ∧
      ((∀ c ∈ colTypes, c.name ≠ "TemplateName") →
        (decodeRow colTypes row).template = none) ∧
      ((∀ c ∈ colTypes, c.name ≠ "CreationDate") →
        (decodeRow colTypes row).creationDate = none) ∧
      ((∀ c ∈ colTypes, c.name ≠ "LastModified") →
        (decodeRow colTypes row).modificationDate = none) ∧
      (∀ i, findColIdx colTypes "PageCount" = some i →
        (decodeRow colTypes row).pageCount =
          row.data.bind (fun l => l.get? i)) ∧
      (∀ i, findColIdx colTypes "TemplateName" = some i →
        (decodeRow colTypes row).template =
          row.data.bind (fun l => l.get? i)) ∧
      (∀ i, findColIdx colTypes "CreationDate" = some i →
        (decodeRow colTypes row).creationDate =
          row.data.bind (fun l => l.get? i)) ∧
      (∀ i, findColIdx colTypes "LastModified" = some i →
        (decodeRow colTypes row).modificationDate =
          row.data.bind (fun l => l.get? i))) ∧
    ((decodeRow [⟨"TemplateName"⟩, ⟨"PageCount"⟩] sampleRow).template =
        some (JsonVal.str "CC - Agendas") ∧
      (decodeRow [⟨"TemplateName"⟩, ⟨"PageCount"⟩] sampleRow).pageCount =
        some (JsonVal.num 7)) ∧
    (∀ listing folderId d0 d1,
      envData (listing folderId 0 500) = some d0 →
      d0.totalEntries = some 501 →
      envData (listing folderId 500 1000) = some d1 →
      (getAllEntries listing folderId).1.entries =
        (d0.results.getD []).map (decodeRow (d0.colTypes.getD [])) ++
        (d1.results.getD []).map (decodeRow (d1.colTypes.getD []))) := by
  refine ⟨?_, ⟨rfl, rfl⟩, ?_⟩
  · intro colTypes row
    refine ⟨?_, ?_, ?_, ?_, ?_, ?_, ?_, ?_⟩ <;>
      first
      | (intro h
         simp [decodeRow, findColIdx_eq_none colTypes _ h, readCol])
      | (intro i hi
         simp [decodeRow, hi, readCol_some])
  · intro listing folderId d0 d1 h0 htot h1
    unfold getAllEntries
    rw [h0]
    simp only [htot, Option.getD_some]
    rw [getAllEntriesRest_pos _ _ _ _ (by norm_num : (500 : Int) < 501)]
    rw [show (500 : Int) + 500 = 1000 by norm_num, h1]
    rw [getAllEntriesRest_neg _ _ _ _ (by norm_num : ¬ (1000 : Int) < 501)]
    simp [decodePage]

/-- Witness for C4: the absence branch, the presence branch, and the
two-page run evaluated on concrete fixtures. -/
theorem column_resolution_per_page_witness :
    (decodeRow [] sampleRow).pageCount = none ∧
    (decodeRow [⟨"PageCount"⟩] sampleRow).pageCount =
      sampleRow.data.bind (fun l => l.get? 0) ∧
    (getAllEntries fixtureListing501 874714).1.entries =
      (fixturePage501a.results.getD []).map
        (decodeRow (fixturePage501a.colTypes.getD [])) ++
      (fixturePage501b.results.getD []).map
        (decodeRow (fixturePage501b.colTypes.getD [])) :=
  ⟨(column_resolution_per_page.1 [] sampleRow).1 (by simp),
   (column_resolution_per_page.1 [⟨"PageCount"⟩] sampleRow).2.2.2.2.1 0 rfl,
   column_resolution_per_page.2.2 fixtureListing501 874714 fixturePage501a
     fixturePage501b rfl rfl rfl⟩

/-! ## Claim C8 -/

/-- C8: when the first page reports a total of 0 (or no total at all) the
pagination loop exits after that single page — the request log is exactly
the first window — and with empty first-page results the operation
returns the first page's folder name with an empty entries list. -/
theorem getAllEntries_zero_total_single_page
    (listing : Int → Int → Int → Option ApiResponse) (folderId : Int)
    (data : Payload)
    (h0 : envData (listing folderId 0 500) = some data)
    (htot : data.totalEntries = some 0 ∨ data.totalEntries = none) :
    (getAllEntries listing folderId).2 = [(0, 500)] ∧
    (getAllEntries listing folderId).1.folderName = data.name.getD "" ∧
    (data.results.getD [] = [] →
      (getAllEntries listing folderId).1 = ⟨data.name.getD "", []⟩) := by
  have htot0 : data.totalEntries.getD 0 = 0 := by
    rcases htot with h | h <;> simp [h]
  unfold getAllEntries
  rw [h0]
  simp only [htot0]
  rw [getAllEntriesRest_neg _ _ _ _ (by norm_num : ¬ (500 : Int) < 0)]
  refine ⟨rfl, by simp, ?_⟩
  intro hres
  simp [decodePage, hres]

/-- Witness for C8: the zero-total fixture, evaluated. -/
theorem getAllEntries_zero_total_single_page_witness :
    (getAllEntries fixtureListingEmpty 874714).2 = [(0, 500)] ∧
    (getAllEntries fixtureListingEmpty 874714).1 = ⟨"Empty Folder", []⟩ := by
  have h := getAllEntries_zero_total_single_page fixtureListingEmpty 874714
    (mkPayload "Empty Folder" 0 [] []) rfl (Or.inl rfl)
  exact ⟨h.1, h.2.2 rfl⟩

/-! ## Claim C1 -/

/-- C1: when the first page reports totalEntries = 1200 and every window
is served, getAllEntries issues exactly 3 requests with start values
0, 500, 1000 (each with end = start + 500) and returns the 3 pages
decoded and concatenated in request order; with 500/500/200 served rows
that is 1200 entries. -/
theorem getAllEntries_paginates_1200
    (listing : Int → Int → Int → Option ApiResponse) (folderId : Int)
    (d0 d1 d2 : Payload)
    (h0 : envData (listing folderId 0 500) = some d0)
    (htot : d0.totalEntries = some 1200)
    (h1 : envData (listing folderId 500 1000) = some d1)
    (h2 : envData (listing folderId 1000 1500) = some d2) :
    (getAllEntries listing folderId).2 =
      [(0, 500), (500, 1000), (1000, 1500)] ∧
    (getAllEntries listing folderId).1.entries =
      decodePage d0 ++ decodePage d1 ++ decodePage d2 ∧
    ((d0.results.getD []).length = 500 →
      (d1.results.getD []).length = 500 →
      (d2.results.getD []).length = 200 →
      (getAllEntries listing folderId).1.entries.length = 1200) := by
  unfold getAllEntries
  rw [h0]
  simp only [htot, Option.getD_some]
  rw [getAllEntriesRest_pos _ _ _ _ (by norm_num : (500 : Int) < 1200)]
  rw [show (500 : Int) + 500 = 1000 by norm_num, h1]
  rw [getAllEntriesRest_pos _ _ _ _ (by norm_num : (1000 : Int) < 1200)]
  rw [show (1000 : Int) + 500 = 1500 by norm_num, h2]
  rw [getAllEntriesRest_neg _ _ _ _ (by norm_num : ¬ (1500 : Int) < 1200)]
  refine ⟨rfl, by simp, ?_⟩
  intro l0 l1 l2
  simp [decodePage, l0, l1, l2]

/-- Witness for C1: the 1200-entry fixture backend, evaluated. -/
theorem getAllEntries_paginates_1200_witness :
    (getAllEntries fixtureListing1200 874714).2 =
      [(0, 500), (500, 1000), (1000, 1500)] ∧
    (getAllEntries fixtureListing1200 874714).1.entries.length = 1200 := by
  have h := getAllEntries_paginates_1200 fixtureListing1200 874714
    (mkPayload "City Council" 1200 (List.replicate 500 sampleRow)
      [⟨"TemplateName"⟩, ⟨"PageCount"⟩])
    (mkPayload "ignored" 9999 (List.replicate 500 sampleRow) [])
    (mkPayload "ignored too" 5 (List.replicate 200 sampleRow) [])
    rfl rfl rfl rfl
  exact ⟨h.1, h.2.2 (by simp [mkPayload]) (by simp [mkPayload])
    (by simp [mkPayload])⟩

/-! ## Claim C2 -/

/-- The pagination tail only observes the backend through `envData`. -/
theorem getAllEntriesRest_congr (L1 L2 : Int → Int → Int → Option ApiResponse)
    (folderId : Int)
    (h : ∀ f s e, envData (L1 f s e) = envData (L2 f s e)) :
    ∀ totalEntries start, getAllEntriesRest L1 folderId totalEntries start =
      getAllEntriesRest L2 folderId totalEntries start := by
  have main : ∀ n : Nat, ∀ totalEntries start : Int,
      (totalEntries - start).toNat = n →
      getAllEntriesRest L1 folderId totalEntries start =
        getAllEntriesRest L2 folderId totalEntries start := by
    intro n
    induction n using Nat.strong_induction_on with
    | _ n ih =>
      intro total start hn
      by_cases hlt : start < total
      · rw [getAllEntriesRest_pos L1 folderId total start hlt,
            getAllEntriesRest_pos L2 folderId total start hlt, h]
        cases henv : envData (L2 folderId start (start + 500)) with
        | none => rfl
        | some data =>
          have hrec := ih ((total - (start + 500)).toNat) (by omega) total
            (start + 500) rfl
          simp only [hrec]
      · rw [getAllEntriesRest_neg L1 folderId total start hlt,
            getAllEntriesRest_neg L2 folderId total start hlt]
  intro totalEntries start
  exact main _ totalEntries start rfl

/-- C2: the choice of envelope key does not affect the normalized
result — a payload under the modern `data` key unwraps to the same
payload as under the legacy `d` key, and both `getAllEntries` and
`browseFolder` observe the backend only through that unwrapping, so two
backends that agree after unwrapping produce equal results. -/
theorem envelope_choice_irrelevant :
    (∀ P : Payload,
      envData (some ⟨some P, none⟩) = envData (some ⟨none, some P⟩)) ∧
    (∀ L1 L2 : Int → Int → Int → Option ApiResponse,
      (∀ f s e, envData (L1 f s e) = envData (L2 f s e)) →
      ∀ folderId, getAllEntries L1 folderId = getAllEntries L2 folderId ∧
        browseFolder L1 folderId = browseFolder L2 folderId) := by
  refine ⟨fun P => rfl, ?_⟩
  intro L1 L2 h folderId
  constructor
  · unfold getAllEntries
    rw [h]
    cases henv : envData (L2 folderId 0 500) with
    | none => rfl
    | some data => simp only [getAllEntriesRest_congr L1 L2 folderId h]
  · unfold browseFolder
    rw [h]

/-- Witness for C2: the same one-page payload served under the two
envelope keys decodes identically. -/
theorem envelope_choice_irrelevant_witness :
    getAllEntries fixtureListingDataKey 1 = getAllEntries fixtureListingDKey 1 ∧
    browseFolder fixtureListingDataKey 1 = browseFolder fixtureListingDKey 1 :=
  envelope_choice_irrelevant.2 fixtureListingDataKey fixtureListingDKey
    (fun _ _ _ => rfl) 1

/-! ## Claim C5 -/

/-- When the redirect condition holds, a `Location` header value is
present (and non-empty, with a redirect status). -/
theorem redirectCond_location {r : HttpResponse}
    (h : redirectCond r = true) :
    ∃ loc, r.location = some loc ∧
      (loc != "" && isRedirectStatus r.status) = true := by
  unfold redirectCond at h
  cases hl : r.location with
  | none => rw [hl] at h; exact absurd h (by simp)
  | some loc => rw [hl] at h; exact ⟨loc, rfl, h⟩

/-- The request log of a successful fetch chain starts with the chain's
own first request: the resolved URL together with the Cookie header
built from the jar at entry. -/
theorem clientFetch_log_head (transport : String → String → HttpResponse)
    (config : WebLinkConfig) (fuel : Nat) (jar : Jar) (url : String)
    (x : HttpResponse × Jar × List (String × String))
    (h : clientFetch transport config (fuel + 1) jar url = some x) :
    ∃ rest, x.2.2 = (resolveUrl config url, getCookieHeader jar) :: rest := by
  simp only [clientFetch] at h
  by_cases hred : redirectCond
      (transport (resolveUrl config url) (getCookieHeader jar)) = true
  · rw [if_pos hred] at h
    obtain ⟨loc, hloc, _⟩ := redirectCond_location hred
    rw [hloc] at h
    have h' : (clientFetch transport config fuel
        (parseCookies jar (transport (resolveUrl config url)
          (getCookieHeader jar)).setCookies) loc).map
        (fun y => (y.1, y.2.1,
          (resolveUrl config url, getCookieHeader jar) :: y.2.2)) =
        some x := h
    cases hrec : clientFetch transport config fuel
        (parseCookies jar (transport (resolveUrl config url)
          (getCookieHeader jar)).setCookies) loc with
    | none => rw [hrec] at h'; exact absurd h' (by simp)
    | some y =>
      rw [hrec] at h'
      simp only [Option.map_some', Option.some.injEq] at h'
      exact ⟨y.2.2, by rw [← h']⟩
  · rw [if_neg hred] at h
    simp only [Option.some.injEq] at h
    exact ⟨[], by rw [← h]⟩

/-- C5: whenever a response carries one of the five redirect statuses
together with a (non-empty) Location header, fetch recursively repeats
the whole operation against the resolved location with the jar updated
by the response's cookies, prepending the current request to the log;
the returned response of a chain never satisfies the redirect-follow
condition; a Location of /Other.aspx resolves against the configured
base URL's origin; and in a two-hop chain the second request carries the
Cookie header built from the jar that merged the first response's
cookies. -/
theorem fetch_follows_redirects :
    (∀ (transport : String → String → HttpResponse) (config : WebLinkConfig)
      (fuel : Nat) (jar : Jar) (url loc : String),
      (transport (resolveUrl config url) (getCookieHeader jar)).location =
        some loc →
      redirectCond (transport (resolveUrl config url)
        (getCookieHeader jar)) = true →
      clientFetch transport config (fuel + 1) jar url =
        (clientFetch transport config fuel
          (parseCookies jar (transport (resolveUrl config url)
            (getCookieHeader jar)).setCookies) loc).map
          (fun x => (x.1, x.2.1,
            (resolveUrl config url, getCookieHeader jar) :: x.2.2))) ∧
    (∀ transport config fuel (jar : Jar) url r j log,
      clientFetch transport config fuel jar url = some (r, j, log) →
      redirectCond r = false) ∧
    (resolveUrl ARCADIA_CONFIG "/Other.aspx" =
      "https://laserfiche.arcadiaca.gov/Other.aspx") ∧
    (∀ (transport : String → String → HttpResponse) (config : WebLinkConfig)
      (fuel : Nat) (jar : Jar) (url loc : String) r j log,
      (transport (resolveUrl config url) (getCookieHeader jar)).location =
        some loc →
      redirectCond (transport (resolveUrl config url)
        (getCookieHeader jar)) = true →
      clientFetch transport config (fuel + 1 + 1) jar url =
        some (r, j, log) →
      log.take 2 = [(resolveUrl config url, getCookieHeader jar),
        (resolveUrl config loc, getCookieHeader (parseCookies jar
          (transport (resolveUrl config url)
            (getCookieHeader jar)).setCookies))]) := by
  have hstep : ∀ (transport : String → String → HttpResponse)
      (config : WebLinkConfig) (fuel : Nat) (jar : Jar) (url loc : String),
      (transport (resolveUrl config url) (getCookieHeader jar)).location =
        some loc →
      redirectCond (transport (resolveUrl config url)
        (getCookieHeader jar)) = true →
      clientFetch transport config (fuel + 1) jar url =
        (clientFetch transport config fuel
          (parseCookies jar (transport (resolveUrl config url)
            (getCookieHeader jar)).setCookies) loc).map
          (fun x => (x.1, x.2.1,
            (resolveUrl config url, getCookieHeader jar) :: x.2.2)) := by
    intro t c fuel jar url loc hloc hred
    simp only [clientFetch]
    rw [if_pos hred, hloc]
  refine ⟨hstep, ?_, by decide, ?_⟩
  · intro t c fuel
    induction fuel with
    | zero =>
      intro jar url r j log h
      exact absurd h (by simp [clientFetch])
    | succ fuel ih =>
      intro jar url r j log h
      simp only [clientFetch] at h
      by_cases hred : redirectCond
          (t (resolveUrl c url) (getCookieHeader jar)) = true
      · rw [if_pos hred] at h
        obtain ⟨loc, hloc, _⟩ := redirectCond_location hred
        rw [hloc] at h
        have h' : (clientFetch t c fuel
            (parseCookies jar (t (resolveUrl c url)
              (getCookieHeader jar)).setCookies) loc).map
            (fun y => (y.1, y.2.1,
              (resolveUrl c url, getCookieHeader jar) :: y.2.2)) =
            some (r, j, log) := h
        cases hrec : clientFetch t c fuel
            (parseCookies jar (t (resolveUrl c url)
              (getCookieHeader jar)).setCookies) loc with
        | none => rw [hrec] at h'; exact absurd h' (by simp)
        | some y =>
          rw [hrec] at h'
          simp only [Option.map_some', Option.some.injEq, Prod.mk.injEq] at h'
          obtain ⟨hr, _, _⟩ := h'
          exact hr ▸ ih _ loc y.1 y.2.1 y.2.2 hrec
      · rw [if_neg hred] at h
        simp only [Option.some.injEq, Prod.mk.injEq] at h
        obtain ⟨hr, _, _⟩ := h
        exact hr ▸ (by simpa using hred)
  · intro t c fuel jar url loc r j log hloc hred hrun
    rw [hstep t c (fuel + 1) jar url loc hloc hred] at hrun
    cases hrec : clientFetch t c (fuel + 1)
        (parseCookies jar (t (resolveUrl c url)
          (getCookieHeader jar)).setCookies) loc with
    | none => rw [hrec] at hrun; exact absurd hrun (by simp)
    | some x =>
      rw [hrec] at hrun
      simp only [Option.map_some', Option.some.injEq, Prod.mk.injEq] at hrun
      obtain ⟨_, _, hlog⟩ := hrun
      obtain ⟨rest, hhead⟩ := clientFetch_log_head t c fuel
        (parseCookies jar (t (resolveUrl c url)
          (getCookieHeader jar)).setCookies) loc x hrec
      rw [← hlog, hhead]
      rfl

/-- Witness for C5: the concrete transport that redirects to /Other.aspx
with a 302, evaluated on the Arcadia configuration. -/
theorem fetch_follows_redirects_witness :
    (clientFetch redirectTransport ARCADIA_CONFIG 2 [] "Start.aspx" =
      (clientFetch redirectTransport ARCADIA_CONFIG 1
        (parseCookies [] (redirectTransport
          (resolveUrl ARCADIA_CONFIG "Start.aspx")
          (getCookieHeader [])).setCookies) "/Other.aspx").map
        (fun x => (x.1, x.2.1,
          (resolveUrl ARCADIA_CONFIG "Start.aspx", getCookieHeader []) ::
            x.2.2))) ∧
    redirectCond ⟨200, [], none, none⟩ = false ∧
    (clientFetch redirectTransport ARCADIA_CONFIG 2 [] "Start.aspx").map
        (fun x => x.2.2.take 2) =
      some [("https://laserfiche.arcadiaca.gov/WebLink/Start.aspx", ""),
        ("https://laserfiche.arcadiaca.gov/Other.aspx", "SESSION=xyz")] := by
  refine ⟨fetch_follows_redirects.1 redirectTransport ARCADIA_CONFIG 1 []
      "Start.aspx" "/Other.aspx" rfl rfl,
    fetch_follows_redirects.2.1 redirectTransport ARCADIA_CONFIG 2 []
      "Start.aspx" ⟨200, [], none, none⟩ [("SESSION", "xyz")]
      [("https://laserfiche.arcadiaca.gov/WebLink/Start.aspx", ""),
       ("https://laserfiche.arcadiaca.gov/Other.aspx", "SESSION=xyz")]
      (by decide), ?_⟩
  have h := fetch_follows_redirects.2.2.2 redirectTransport ARCADIA_CONFIG 0
    [] "Start.aspx" "/Other.aspx" ⟨200, [], none, none⟩ [("SESSION", "xyz")]
    [("https://laserfiche.arcadiaca.gov/WebLink/Start.aspx", ""),
     ("https://laserfiche.arcadiaca.gov/Other.aspx", "SESSION=xyz")]
    rfl rfl (by decide)
  rw [show (clientFetch redirectTransport ARCADIA_CONFIG 2 [] "Start.aspx") =
    some (⟨200, [], none, none⟩, [("SESSION", "xyz")],
      [("https://laserfiche.arcadiaca.gov/WebLink/Start.aspx", ""),
       ("https://laserfiche.arcadiaca.gov/Other.aspx", "SESSION=xyz")])
    from by decide]
  simp only [Option.map_some']
  rw [show ([("https://laserfiche.arcadiaca.gov/WebLink/Start.aspx", ""),
      ("https://laserfiche.arcadiaca.gov/Other.aspx", "SESSION=xyz")].take 2) =
      [("https://laserfiche.arcadiaca.gov/WebLink/Start.aspx", ""),
       ("https://laserfiche.arcadiaca.gov/Other.aspx", "SESSION=xyz")]
    from rfl]

/-! ## Claim C6 -/

/-- In-place update: searching the updated association list for the
updated key finds the new value iff the key was present. -/
theorem find?_update_self (jar : Jar) (n v : String) :
    (jar.map (fun p => if p.1 == n then (n, v) else p)).find?
        (fun p => p.1 == n) =
      if jar.any (fun p => p.1 == n) then some (n, v) else none := by
  induction jar with
  | nil => rfl
  | cons p jar ih =>
    by_cases hp : p.1 = n
    · simp [hp]
    · have hp' : (p.1 == n) = false := by simp [hp]
      rw [List.map_cons, if_neg (by simp [hp]), List.any_cons, hp',
        Bool.false_or, List.find?_cons_of_neg _ (by simp [hp])]
      exact ih

/-- In-place update of one key leaves the binding of every other key
unchanged. -/
theorem find?_update_other (jar : Jar) (n v k : String) (hk : k ≠ n) :
    (jar.map (fun p => if p.1 == n then (n, v) else p)).find?
        (fun p => p.1 == k) =
      jar.find? (fun p => p.1 == k) := by
  induction jar with
  | nil => rfl
  | cons p jar ih =>
    by_cases hp : p.1 = n
    · rw [List.map_cons, if_pos (by simp [hp]),
        List.find?_cons_of_neg _ (by simp [Ne.symm hk]),
        List.find?_cons_of_neg _ (by simp [hp, Ne.symm hk])]
      exact ih
    · rw [List.map_cons, if_neg (by simp [hp])]
      by_cases hpk : p.1 = k
      · rw [List.find?_cons_of_pos _ (by simp [hpk]),
          List.find?_cons_of_pos _ (by simp [hpk])]
      · rw [List.find?_cons_of_neg _ (by simp [hpk]),
          List.find?_cons_of_neg _ (by simp [hpk])]
        exact ih

/-- `Map.set` semantics on lookups: the updated key maps to the new
value, every other key keeps its binding. -/
theorem jarGet_mapSet (jar : Jar) (k n v : String) :
    jarGet (mapSet jar n v) k = if k = n then some v else jarGet jar k := by
  unfold mapSet jarGet
  by_cases hk : k = n
  · subst hk
    by_cases hmem : jar.any (fun p => p.1 == k)
    · rw [if_pos hmem, find?_update_self, if_pos hmem]
      simp
    · rw [if_neg hmem, List.find?_append]
      have hnone : jar.find? (fun p => p.1 == k) = none := by
        rw [List.find?_eq_none]
        intro x hx
        simp only [List.any_eq_true, not_exists] at hmem
        simpa using fun hxk => hmem x ⟨hx, by simp [hxk]⟩
      rw [hnone]
      simp
  · by_cases hmem : jar.any (fun p => p.1 == n)
    · rw [if_pos hmem, find?_update_other jar n v k hk, if_neg hk]
    · rw [if_neg hmem, List.find?_append, if_neg hk,
        show ([(n, v)].find? (fun p => p.1 == k)) = none by simp [Ne.symm hk]]
      cases jar.find? (fun p => p.1 == k) <;> rfl

/-- Keys present in the jar stay present across cookie parsing (the jar
only grows or overwrites; it is never cleared). -/
theorem jarGet_parseCookies_isSome (setCookies : List String) :
    ∀ (jar : Jar) (k : String), (jarGet jar k).isSome = true →
      (jarGet (parseCookies jar setCookies) k).isSome = true := by
  induction setCookies with
  | nil => intro jar k h; exact h
  | cons c cs ih =>
    intro jar k h
    have hstep : parseCookies jar (c :: cs) =
        parseCookies (match parseSetCookie c with
          | some (n, v) => mapSet jar n v
          | none => jar) cs := rfl
    rw [hstep]
    cases hc : parseSetCookie c with
    | none => exact ih jar k h
    | some nv =>
      obtain ⟨n, v⟩ := nv
      apply ih
      show (jarGet (mapSet jar n v) k).isSome = true
      rw [jarGet_mapSet]
      by_cases hkn : k = n <;> simp [hkn, h]

/-- Keys present in the jar stay present across a whole fetch chain
(every jar mutation of `fetch` is a `parseCookies` merge). -/
theorem jarGet_clientFetch_isSome (transport : String → String → HttpResponse)
    (config : WebLinkConfig) :
    ∀ (fuel : Nat) (jar : Jar) (url : String) r j log,
      clientFetch transport config fuel jar url = some (r, j, log) →
      ∀ k, (jarGet jar k).isSome = true → (jarGet j k).isSome = true := by
  intro fuel
  induction fuel with
  | zero => intro jar url r j log h; exact absurd h (by simp [clientFetch])
  | succ fuel ih =>
    intro jar url r j log h k hk
    simp only [clientFetch] at h
    by_cases hred : redirectCond
        (transport (resolveUrl config url) (getCookieHeader jar)) = true
    · rw [if_pos hred] at h
      obtain ⟨loc, hloc, _⟩ := redirectCond_location hred
      rw [hloc] at h
      have h' : (clientFetch transport config fuel
          (parseCookies jar (transport (resolveUrl config url)
            (getCookieHeader jar)).setCookies) loc).map
          (fun x => (x.1, x.2.1,
            (resolveUrl config url, getCookieHeader jar) :: x.2.2)) =
          some (r, j, log) := h
      cases hrec : clientFetch transport config fuel
          (parseCookies jar (transport (resolveUrl config url)
            (getCookieHeader jar)).setCookies) loc with
      | none => rw [hrec] at h'; exact absurd h' (by simp)
      | some x =>
        rw [hrec] at h'
        simp only [Option.map_some', Option.some.injEq, Prod.mk.injEq] at h'
        obtain ⟨_, hj, _⟩ := h'
        exact hj ▸ ih _ loc x.1 x.2.1 x.2.2 hrec k
          (jarGet_parseCookies_isSome _ jar k hk)
    · rw [if_neg hred] at h
      simp only [Option.some.injEq, Prod.mk.injEq] at h
      obtain ⟨_, hj, _⟩ := h
      exact hj ▸ jarGet_parseCookies_isSome _ jar k hk

/-- C6: the cookie jar only grows or overwrites entries per name and no
operation clears it: merging responses preserves every present key, a
whole fetch chain preserves every present key, and after two sequential
responses carrying Set-Cookie A=1 and then B=2 the Cookie header built
for the next request is exactly "A=1; B=2". -/
theorem cookie_jar_accumulates :
    (∀ (jar : Jar) (setCookies : List String) (k : String),
      (jarGet jar k).isSome = true →
      (jarGet (parseCookies jar setCookies) k).isSome = true) ∧
    (∀ transport config fuel (jar : Jar) url r j log,
      clientFetch transport config fuel jar url = some (r, j, log) →
      ∀ k, (jarGet jar k).isSome = true → (jarGet j k).isSome = true) ∧
    getCookieHeader (parseCookies (parseCookies [] ["A=1"]) ["B=2"]) =
      "A=1; B=2" ∧
    jarGet (parseCookies (parseCookies [] ["A=1"]) ["B=2"]) "A" = some "1" ∧
    jarGet (parseCookies (parseCookies [] ["A=1"]) ["B=2"]) "B" = some "2" :=
  ⟨fun jar cs k => jarGet_parseCookies_isSome cs jar k,
   fun t c fuel jar url r j log h k =>
     jarGet_clientFetch_isSome t c fuel jar url r j log h k,
   by decide, by decide, by decide⟩

/-- Witness for C6: both preservation statements evaluated on concrete
jars, cookies and a concrete two-hop fetch chain. -/
theorem cookie_jar_accumulates_witness :
    (jarGet (parseCookies [("A", "1")] ["B=2"]) "A").isSome = true ∧
    (jarGet [("A", "1"), ("SESSION", "xyz")] "A").isSome = true :=
  ⟨cookie_jar_accumulates.1 [("A", "1")] ["B=2"] "A" (by decide),
   cookie_jar_accumulates.2.1 redirectTransport ARCADIA_CONFIG 2 [("A", "1")]
     "Browse.aspx" ⟨200, [], none, none⟩ [("A", "1"), ("SESSION", "xyz")]
     [("https://laserfiche.arcadiaca.gov/WebLink/Browse.aspx", "A=1"),
      ("https://laserfiche.arcadiaca.gov/Other.aspx", "A=1; SESSION=xyz")]
     rfl "A" (by decide)⟩

/-! ## Claim C9 -/

/-- Away from the code `-2`, the two type mappings agree. -/
theorem legacy_getEntryType_eq (n : Int) (h : n ≠ -2) :
    Legacy.getEntryType n = getEntryType n := by
  unfold Legacy.getEntryType getEntryType
  by_cases h0 : n = 0
  · simp [h0]
  by_cases h1 : n = 1
  · simp [h0, h1]
  by_cases h2 : n = 2
  · simp [h0, h1, h2]
  simp [h0, h1, h2, h]

/-- Away from the code `-2`, the two row decoders agree. -/
theorem legacy_decodeRow_eq (colTypes : List ColType) (row : ResultRow)
    (h : row.type ≠ -2) :
    Legacy.decodeRow colTypes row = decodeRow colTypes row := by
  unfold Legacy.decodeRow decodeRow
  rw [legacy_getEntryType_eq row.type h]

/-- Away from rows with code `-2`, the two page decoders agree. -/
theorem legacy_decodePage_eq (data : Payload)
    (h : ∀ row ∈ data.results.getD [], row.type ≠ -2) :
    Legacy.decodePage data = decodePage data := by
  unfold Legacy.decodePage decodePage
  exact List.map_congr_left (fun row hr => legacy_decodeRow_eq _ row (h row hr))

/-- One unfolding step of the legacy pagination tail when the loop
condition holds. -/
theorem legacyRest_pos (listing : Int → Int → Int → Option ApiResponse)
    (folderId totalEntries start : Int) (h : start < totalEntries) :
    Legacy.getAllEntriesRest listing folderId totalEntries start =
      match envData (listing folderId start (start + 500)) with
      | none => ([], [(start, start + 500)])
      | some data =>
        let rest :=
          Legacy.getAllEntriesRest listing folderId totalEntries (start + 500)
        (Legacy.decodePage data ++ rest.1, (start, start + 500) :: rest.2) := by
  rw [Legacy.getAllEntriesRest]
  simp [h]

/-- One unfolding step of the legacy pagination tail when the loop
condition fails. -/
theorem legacyRest_neg (listing : Int → Int → Int → Option ApiResponse)
    (folderId totalEntries start : Int) (h : ¬ start < totalEntries) :
    Legacy.getAllEntriesRest listing folderId totalEntries start = ([], []) := by
  rw [Legacy.getAllEntriesRest]
  simp [h]

/-- Away from rows with code `-2`, the legacy and library pagination
tails agree. -/
theorem legacy_getAllEntriesRest_eq
    (listing : Int → Int → Int → Option ApiResponse) (folderId : Int)
    (hrows : ∀ f s e data, envData (listing f s e) = some data →
      ∀ row ∈ data.results.getD [], row.type ≠ -2) :
    ∀ totalEntries start,
      Legacy.getAllEntriesRest listing folderId totalEntries start =
        getAllEntriesRest listing folderId totalEntries start := by
  have main : ∀ n : Nat, ∀ totalEntries start : Int,
      (totalEntries - start).toNat = n →
      Legacy.getAllEntriesRest listing folderId totalEntries start =
        getAllEntriesRest listing folderId totalEntries start := by
    intro n
    induction n using Nat.strong_induction_on with
    | _ n ih =>
      intro total start hn
      by_cases hlt : start < total
      · rw [legacyRest_pos listing folderId total start hlt,
            getAllEntriesRest_pos listing folderId total start hlt]
        cases henv : envData (listing folderId start (start + 500)) with
        | none => rfl
        | some data =>
          have hrec := ih ((total - (start + 500)).toNat) (by omega) total
            (start + 500) rfl
          simp only [hrec, legacy_decodePage_eq data
            (hrows folderId start (start + 500) data henv)]
      · rw [legacyRest_neg listing folderId total start hlt,
            getAllEntriesRest_neg listing folderId total start hlt]
  intro totalEntries start
  exact main _ totalEntries start rfl

/-- Away from rows with code `-2`, the legacy and library
`getAllEntries` agree. -/
theorem legacy_getAllEntries_eq
    (listing : Int → Int → Int → Option ApiResponse) (folderId : Int)
    (hrows : ∀ f s e data, envData (listing f s e) = some data →
      ∀ row ∈ data.results.getD [], row.type ≠ -2) :
    Legacy.getAllEntries listing folderId = getAllEntries listing folderId := by
  unfold Legacy.getAllEntries getAllEntries
  cases henv : envData (listing folderId 0 500) with
  | none => rfl
  | some data =>
    simp only [legacy_getAllEntriesRest_eq listing folderId hrows,
      legacy_decodePage_eq data (hrows folderId 0 500 data henv)]

/-- The legacy and library `fetch` agree under the Arcadia
configuration (the legacy hardcoded origin is that configuration's
origin). -/
theorem legacy_clientFetch_eq (transport : String → String → HttpResponse) :
    ∀ (fuel : Nat) (jar : Jar) (url : String),
      Legacy.clientFetch transport fuel jar url =
        clientFetch transport ARCADIA_CONFIG fuel jar url := by
  intro fuel
  induction fuel with
  | zero => intro jar url; rfl
  | succ fuel ih =>
    intro jar url
    simp only [Legacy.clientFetch, clientFetch]
    rw [show Legacy.getCookieHeader = getCookieHeader from rfl,
        show Legacy.parseCookies = parseCookies from rfl,
        show Legacy.resolveUrl url = resolveUrl ARCADIA_CONFIG url from rfl]
    simp only [ih]

/-- C9 (amended): the legacy standalone script and the library client
agree operation for operation — cookie-header construction, cookie
parsing, URL resolution and fetch under the Arcadia configuration, the
session-bootstrap URLs, the type mapping away from the code -2, and
getAllEntries whenever no served row carries type -2.  (At -2 the two
getEntryType implementations differ; see the counterexample.) -/
theorem legacy_library_agreement :
    (∀ jar, Legacy.getCookieHeader jar = getCookieHeader jar) ∧
    (∀ (jar : Jar) (setCookies : List String),
      Legacy.parseCookies jar setCookies = parseCookies jar setCookies) ∧
    (∀ url, Legacy.resolveUrl url = resolveUrl ARCADIA_CONFIG url) ∧
    (∀ transport (fuel : Nat) (jar : Jar) url,
      Legacy.clientFetch transport fuel jar url =
        clientFetch transport ARCADIA_CONFIG fuel jar url) ∧
    (Legacy.initSessionUrls = initSessionUrls ARCADIA_CONFIG) ∧
    (∀ n : Int, n ≠ -2 → Legacy.getEntryType n = getEntryType n) ∧
    (∀ (listing : Int → Int → Int → Option ApiResponse) (folderId : Int),
      (∀ f s e data, envData (listing f s e) = some data →
        ∀ row ∈ data.results.getD [], row.type ≠ -2) →
      Legacy.getAllEntries listing folderId =
        getAllEntries listing folderId) :=
  ⟨fun _ => rfl, fun _ _ => rfl, fun _ => rfl, legacy_clientFetch_eq,
   rfl, legacy_getEntryType_eq, legacy_getAllEntries_eq⟩

/-- Counterexample for C9 as stated: at the type code -2 the legacy
script's getEntryType (whose record has no entry for -2) disagrees with
the library's, so the two implementations are not identical on every
input. -/
theorem legacy_library_disagree_neg2 :
    Legacy.getEntryType (-2) = "Unknown(-2)" ∧
    getEntryType (-2) = "Document" ∧
    Legacy.getEntryType (-2) ≠ getEntryType (-2) ∧
    Legacy.decodeRow [] ⟨"doc", 1, -2, none⟩ ≠
      decodeRow [] ⟨"doc", 1, -2, none⟩ := by
  refine ⟨by decide, by decide, by decide, by decide⟩

/-- Witness for C9: the agreement evaluated at the concrete code 99 and
on the concrete zero-total backend. -/
theorem legacy_library_agreement_witness :
    Legacy.getEntryType 99 = getEntryType 99 ∧
    Legacy.getAllEntries fixtureListingEmpty 874714 =
      getAllEntries fixtureListingEmpty 874714 := by
  refine ⟨legacy_library_agreement.2.2.2.2.2.1 99 (by decide), ?_⟩
  refine legacy_library_agreement.2.2.2.2.2.2 fixtureListingEmpty 874714 ?_
  intro f s e data h row hr
  have h' : (some (mkPayload "Empty Folder" 0 [] []) : Option Payload) =
      some data := h
  injection h' with h'
  rw [← h'] at hr
  simp [mkPayload] at hr

/-! ## Claim C10 -/

/-- `parseSetCookie`, spelled out (the let binding inlined). -/
theorem parseSetCookie_eq (cookie : String) :
    parseSetCookie cookie =
      match (cookie.toList.takeWhile (fun c => c != ';')).findIdx?
          (fun c => c == '=') with
      | none => none
      | some eqIdx =>
        if eqIdx > 0 then
          some (jsTrim (String.mk
              ((cookie.toList.takeWhile (fun c => c != ';')).take eqIdx)),
            jsTrim (String.mk
              ((cookie.toList.takeWhile (fun c => c != ';')).drop
                (eqIdx + 1))))
        else none := rfl

/-- A stored cookie's name and value are both trims of some string. -/
theorem parseSetCookie_some_trim {cookie n v : String}
    (h : parseSetCookie cookie = some (n, v)) :
    (∃ s, n = jsTrim s) ∧ (∃ s, v = jsTrim s) := by
  rw [parseSetCookie_eq] at h
  cases hidx : (cookie.toList.takeWhile (fun c => c != ';')).findIdx?
      (fun c => c == '=') with
  | none =>
    rw [hidx] at h
    exact absurd h (by simp)
  | some i =>
    rw [hidx] at h
    have h2 : (if i > 0 then
        some (jsTrim (String.mk
            ((cookie.toList.takeWhile (fun c => c != ';')).take i)),
          jsTrim (String.mk
            ((cookie.toList.takeWhile (fun c => c != ';')).drop (i + 1))))
        else none) = some (n, v) := h
    by_cases hi : i > 0
    · rw [if_pos hi] at h2
      simp only [Option.some.injEq, Prod.mk.injEq] at h2
      exact ⟨⟨_, h2.1.symm⟩, ⟨_, h2.2.symm⟩⟩
    · rw [if_neg hi] at h2
      exact absurd h2 (by simp)

/-- Membership after a `Map.set`: the element was already present, or it
is the new binding. -/
theorem mem_mapSet {jar : Jar} {n v : String} {p : String × String}
    (h : p ∈ mapSet jar n v) : p ∈ jar ∨ p = (n, v) := by
  unfold mapSet at h
  by_cases hmem : jar.any (fun q => q.1 == n)
  · rw [if_pos hmem] at h
    rw [List.mem_map] at h
    obtain ⟨q, hq, he⟩ := h
    by_cases hqn : q.1 = n
    · right
      rw [← he, if_pos (by simpa using hqn)]
    · left
      rwa [← he, if_neg (by simpa using hqn)]
  · rw [if_neg hmem, List.mem_append] at h
    rcases h with h | h
    · exact Or.inl h
    · right
      simpa using h

/-- Both-ends whitespace stripping is idempotent. -/
theorem trimChars_idem (cs : List Char) :
    trimChars (trimChars cs) = trimChars cs := by
  have hrd : ∀ l : List Char,
      trimChars l = List.rdropWhile Char.isWhitespace
        (l.dropWhile Char.isWhitespace) := fun l => rfl
  rw [hrd cs, hrd]
  have hfix : (List.rdropWhile Char.isWhitespace
      (cs.dropWhile Char.isWhitespace)).dropWhile Char.isWhitespace =
      List.rdropWhile Char.isWhitespace (cs.dropWhile Char.isWhitespace) := by
    rw [List.dropWhile_eq_self_iff]
    intro hl
    have hpre := List.rdropWhile_prefix Char.isWhitespace
      (cs.dropWhile Char.isWhitespace)
    have hlen : 0 < (cs.dropWhile Char.isWhitespace).length :=
      lt_of_lt_of_le hl hpre.length_le
    have hget := List.IsPrefix.getElem hpre (n := 0) hl
    have hx := List.dropWhile_get_zero_not Char.isWhitespace cs hlen
    simpa [List.get_eq_getElem, hget] using hx
  rw [hfix, List.rdropWhile_idempotent]

/-- `jsTrim` is idempotent: trimmed strings are exactly its fixed
points. -/
theorem jsTrim_idem (s : String) : jsTrim (jsTrim s) = jsTrim s := by
  unfold jsTrim
  rw [show (String.mk (trimChars s.toList)).toList = trimChars s.toList
    from rfl, trimChars_idem]

/-- C10 (amended): parseCookies stores a cookie only when the first =
in the segment before the first ; occurs at an index strictly greater
than 0 — an entry with a leading = or with no = at all is silently
skipped — and every key in the jar is a trimmed string (a fixed point of
trim); but a key may be empty, because a name part that is whitespace
only trims to the empty string (see the counterexample). -/
theorem parseCookies_skip_and_trim :
    (∀ cookie : String, (parseSetCookie cookie).isSome = true ↔
      ∃ i, (cookie.toList.takeWhile (fun c => c != ';')).findIdx?
        (fun c => c == '=') = some i ∧ 0 < i) ∧
    (∀ (jar : Jar) (cookie : String), parseSetCookie cookie = none →
      parseCookies jar [cookie] = jar) ∧
    (∀ (jar : Jar) (setCookies : List String) (k v : String),
      (∀ p ∈ jar, jsTrim p.1 = p.1) →
      jarGet (parseCookies jar setCookies) k = some v →
      jsTrim k = k) := by
  refine ⟨?_, ?_, ?_⟩
  · intro cookie
    rw [parseSetCookie_eq]
    cases hidx : (cookie.toList.takeWhile (fun c => c != ';')).findIdx?
        (fun c => c == '=') with
    | none => simp
    | some i =>
      show (if i > 0 then
          some (jsTrim (String.mk
              ((cookie.toList.takeWhile (fun c => c != ';')).take i)),
            jsTrim (String.mk
              ((cookie.toList.takeWhile (fun c => c != ';')).drop (i + 1))))
          else none).isSome = true ↔ _
      by_cases hi : i > 0
      · rw [if_pos hi]
        simp [hi]
      · rw [if_neg hi]
        simp only [Option.isSome_none, Bool.false_eq_true, false_iff,
          not_exists]
        intro j hj
        obtain ⟨hji, hjpos⟩ := hj
        injection hji with hij
        omega
  · intro jar cookie h
    show (match parseSetCookie cookie with
      | some (n, v) => mapSet jar n v
      | none => jar) = jar
    rw [h]
  · intro jar setCookies
    induction setCookies generalizing jar with
    | nil =>
      intro k v hwf h
      have h' : jarGet jar k = some v := h
      unfold jarGet at h'
      cases hfind : jar.find? (fun p => p.1 == k) with
      | none =>
        rw [hfind] at h'
        exact absurd h' (by simp)
      | some p =>
        rw [hfind] at h'
        have hmem := List.mem_of_find?_eq_some hfind
        have hpk : p.1 = k := by simpa using List.find?_some hfind
        rw [← hpk]
        exact hwf p hmem
    | cons c cs ih =>
      intro k v hwf h
      have hstep : parseCookies jar (c :: cs) =
          parseCookies (match parseSetCookie c with
            | some (n, v) => mapSet jar n v
            | none => jar) cs := rfl
      cases hc : parseSetCookie c with
      | none =>
        have h' : jarGet (parseCookies jar cs) k = some v := by
          rw [hstep, hc] at h
          exact h
        exact ih jar k v hwf h'
      | some nv =>
        obtain ⟨n, v'⟩ := nv
        have h' : jarGet (parseCookies (mapSet jar n v') cs) k = some v := by
          rw [hstep, hc] at h
          exact h
        refine ih (mapSet jar n v') k v ?_ h'
        intro p hp
        rcases mem_mapSet hp with hmem | hpn
        · exact hwf p hmem
        · rw [hpn]
          obtain ⟨⟨s, hs⟩, _⟩ := parseSetCookie_some_trim hc
          show jsTrim n = n
          rw [hs, jsTrim_idem]

/-- Counterexample for C10 as stated: the Set-Cookie entry " =1" has its
first = at index 1 > 0, yet its name part is whitespace only and trims
to the empty string — the jar then carries the empty-string key, so not
every key is non-empty. -/
theorem parseCookies_stores_empty_key :
    parseCookies [] [" =1"] = [("", "1")] ∧
    jarGet (parseCookies [] [" =1"]) "" = some "1" := by
  refine ⟨by decide, by decide⟩

/-- Witness for C10: the skip branch and the trimmed-key invariant
evaluated on concrete cookies. -/
theorem parseCookies_skip_and_trim_witness :
    parseCookies [("A", "1")] ["noequals"] = [("A", "1")] ∧
    jsTrim "SESSION" = "SESSION" :=
  ⟨parseCookies_skip_and_trim.2.1 [("A", "1")] "noequals" (by decide),
   parseCookies_skip_and_trim.2.2 [] ["SESSION=xyz; Path=/"] "SESSION" "xyz"
     (by simp) (by decide)⟩
